import Mathlib

/-!
Shallow embedding of the stay-liquid tab-bar plugin, checked against its
natural-language specification.

The embedding covers:
* the image-source validator and remote-fetch response validation of the
  `ImageUtils` class nested in `src/ios/Plugin/TabsBarOverlay.swift`;
* the remote-image loader's cache / loading-state machine (same file);
* the geometry of `resizeImageAspectFit` and `addRingToImage` (same file),
  together with `addEnhancedRingToImage` from the parallel `ImageUtils`
  file shipped in the repository (`src/unnamed/part_004`);
* the overlay state machine of `TabsBarOverlay` (badges, selection) and the
  Capacitor entry points of `TabsBarPlugin` (`configure`, `select`,
  `setBadge`, `show`, `hide`) from `src/ios/Plugin/TabsBarPlugin.swift`;
* the color utilities of `src/src/components/tabs/color-utils.ts`.

Machine reals (`CGFloat`, JS `number`) are modelled as exact rationals; the
floating-point computations at issue (small integer arithmetic, halving,
division by 255) are exact in those types for the inputs the theorems touch.
Foundation / UIKit collaborators (URL parsing, image decoding, drawing
contexts) are modelled abstractly, as the spec treats them as external
collaborators: a decoded image is an opaque value, and drawing is reduced to
the canvas geometry the code computes.
-/

namespace StayLiquid

/-- ASCII lower-casing of a character, used to model Swift's `lowercased()`
and the case-insensitive regexes of the source. -/
def lowerChar (c : Char) : Char :=
  if 'A' ≤ c ∧ c ≤ 'Z' then Char.ofNat (c.toNat + 32) else c

/-- ASCII lower-casing of a string. -/
def lowerStr (s : String) : String :=
  ⟨s.data.map lowerChar⟩

/-- Says that `p` is a literal prefix of `s` (used to model the anchored regexes of
the source, which only constrain a prefix of the subject string). -/
def strStartsWith (s p : String) : Bool :=
  s.data.take p.data.length == p.data

/-! ### Image source validation (`ImageUtils` in TabsBarOverlay.swift) -/

/-- The five MIME suffixes accepted by the data-URI regex
`^data:image/(png|jpeg|jpg|svg\+xml|webp);base64,` in
`ImageUtils.isValidBase64DataUri`. -/
def dataUriFormats : List String :=
  ["png", "jpeg", "jpg", "svg+xml", "webp"]

/-- Model of `ImageUtils.isValidBase64DataUri`: the string must start (case
insensitively, the regex is compiled with `.caseInsensitive`) with
`data:image/<fmt>;base64,` for one of the five supported formats. -/
def isValidBase64DataUri (dataUri : String) : Bool :=
  dataUriFormats.any fun fmt =>
    strStartsWith (lowerStr dataUri) ("data:image/" ++ fmt ++ ";base64,")

/-- Characters allowed after the first character of a URL scheme. -/
def isSchemeTailChar (c : Char) : Bool :=
  c.isAlphanum || c == '+' || c == '-' || c == '.'

/-- Model of Foundation's `URL(string:)?.scheme`: the longest prefix before
a `:` when it is a syntactically valid scheme (a letter followed by
letters/digits/`+`/`-`/`.`), `none` otherwise. -/
def urlScheme (s : String) : Option String :=
  let pre := s.data.takeWhile (fun c => c ≠ ':')
  if pre.length < s.data.length ∧ pre ≠ [] ∧
      (pre.headD 'a').isAlpha ∧ pre.all isSchemeTailChar then
    some ⟨pre⟩
  else
    none

/-- Model of `ImageUtils.isValidHttpUrl`: parse as a URL and accept when the scheme
is `"http"` **or** `"https"` (the source line is
`return url.scheme == "http" || url.scheme == "https"`). -/
def isValidHttpUrl (urlString : String) : Bool :=
  match urlScheme urlString with
  | some sch => sch == "http" || sch == "https"
  | none => false

/-- The three ways `ImageUtils.processImageIcon` can treat a source string. -/
inductive SourceClass where
  | base64
  | remoteURL
  | invalid
  deriving DecidableEq, Repr

/-- The source-classification branching of `ImageUtils.processImageIcon`:
base64 data URIs are decoded locally, valid HTTP(S) URLs go to
`loadImageFromUrl` (a network fetch), anything else is invalid and is
completed with `nil` (fallback) without any network attempt. -/
def processImageIcon (imageSource : String) : SourceClass :=
  if isValidBase64DataUri imageSource then .base64
  else if isValidHttpUrl imageSource then .remoteURL
  else .invalid

/-! ### Remote fetch response validation
(`ImageUtils.loadImageFromUrl`'s `dataTask` completion handler) -/

/-- The list `validTypes` from the completion handler of `loadImageFromUrl`. -/
def validTypes : List String :=
  ["image/png", "image/jpeg", "image/jpg", "image/svg+xml", "image/webp"]

/-- The constant `maxFileSize = 5 * 1024 * 1024` from `ImageUtils`. -/
def maxFileSize : ℕ := 5 * 1024 * 1024

/-- Abstraction of the `(data, response, error)` triple handed to the
`URLSession` completion handler.  `dataBytes` is the byte count of the body
when `data` is non-nil; `decoded` is `UIImage(data:)`'s result on that body
(an opaque decoded image, `none` when the bytes are not a decodable image).
-/
structure NetResponse where
  dataBytes : Option ℕ
  isHttpResponse : Bool
  statusCode : ℤ
  errorPresent : Bool
  mimeType : Option String
  decoded : Option ℕ
  deriving Repr

/-- The validation chain of `loadImageFromUrl`'s completion handler: require
data, an `HTTPURLResponse`, status exactly 200 and no error; reject a
present `Content-Type` outside `validTypes` (compared lower-cased); reject
bodies over `maxFileSize`; reject undecodable bodies; otherwise yield the
decoded image. -/
def processUrlResponse (r : NetResponse) : Option ℕ :=
  match r.dataBytes with
  | none => none
  | some n =>
    if ¬ r.isHttpResponse then none
    else if r.statusCode ≠ 200 then none
    else if r.errorPresent then none
    else
      let ctOk : Bool := match r.mimeType with
        | some ct => validTypes.contains (lowerStr ct)
        | none => true
      if ¬ ctOk then none
      else if n > maxFileSize then none
      else r.decoded

/-! ### The remote-image loader's cache / loading-state machine

`ImageUtils.loadImageFromUrl` keeps two static maps, `imageCache` and
`loadingStates`.  A request checks the cache, then the loading flag (if set
it re-schedules itself 0.1 s later — "simple debouncing"), and otherwise
marks the URL loading and starts a `URLSession` data task.  The completion
handler clears the loading flag, populates the cache on success, and
delivers the result to the requester.  The model below replays these steps
as atomic actions of a small transition system; `fetchCount` counts
`task.resume()` calls, i.e. issued network fetches. -/

/-- State of the loader: the static maps of `ImageUtils`, plus bookkeeping
for the in-flight task (which caller started it), the re-scheduled
("debounced") callers, the number of network fetches issued, and the
results delivered to callers so far. -/
structure LoaderState where
  imageCache : List (String × ℕ) := []
  loadingStates : List String := []
  inflight : List (ℕ × String) := []
  waiting : List (ℕ × String) := []
  fetchCount : ℕ := 0
  delivered : List (ℕ × Option ℕ) := []
  deriving Repr, DecidableEq

/-- Association-list lookup (Swift `Dictionary` subscript). -/
def lookupKey (k : String) : List (String × ℕ) → Option ℕ
  | [] => none
  | (k', v) :: rest => if k = k' then some v else lookupKey k rest

/-- One call of `loadImageFromUrl(urlString:completion:)` by caller `c`:
cache hit ⇒ complete immediately; already loading ⇒ re-schedule the call
(`DispatchQueue.main.asyncAfter(0.1)`); otherwise set the loading flag,
start the data task and resume it (one more network fetch).  The
`URL(string:)` guard is omitted: the URLs reaching this function already
parsed inside `isValidHttpUrl`. -/
def doRequest (c : ℕ) (u : String) (st : LoaderState) : LoaderState :=
  match lookupKey u st.imageCache with
  | some img => { st with delivered := (c, some img) :: st.delivered }
  | none =>
    if u ∈ st.loadingStates then
      { st with waiting := (c, u) :: st.waiting }
    else
      { st with
        loadingStates := u :: st.loadingStates
        inflight := (c, u) :: st.inflight
        fetchCount := st.fetchCount + 1 }

/-- The data-task completion for URL `u` with result `res` (`some img` when
every validation in `processUrlResponse` passed, `none` otherwise): clear
the loading flag (the `defer`), cache the image on success, and deliver the
result to the caller that started the task. -/
def doComplete (u : String) (res : Option ℕ) (st : LoaderState) : LoaderState :=
  match st.inflight.find? (fun p => p.2 = u) with
  | none => st
  | some (c, _) =>
    let st' := { st with
      loadingStates := st.loadingStates.erase u
      inflight := st.inflight.filter (fun p => p.2 ≠ u) }
    match res with
    | some img =>
      { st' with
        imageCache := (u, img) :: st'.imageCache
        delivered := (c, some img) :: st'.delivered }
    | none => { st' with delivered := (c, none) :: st'.delivered }

/-- A re-scheduled call fires: the waiting entry re-runs `loadImageFromUrl`
from the top. -/
def doFire (c : ℕ) (u : String) (st : LoaderState) : LoaderState :=
  if (c, u) ∈ st.waiting then
    doRequest c u { st with waiting := st.waiting.filter (fun p => p ≠ (c, u)) }
  else st

/-- Interleaved events of the loader. -/
inductive LoaderAction where
  | request (c : ℕ) (u : String)
  | complete (u : String) (res : Option ℕ)
  | fire (c : ℕ) (u : String)
  deriving Repr, DecidableEq

/-- Run a sequence of loader events. -/
def runLoader (st : LoaderState) : List LoaderAction → LoaderState
  | [] => st
  | .request c u :: rest => runLoader (doRequest c u st) rest
  | .complete u res :: rest => runLoader (doComplete u res st) rest
  | .fire c u :: rest => runLoader (doFire c u st) rest

/-! ### Icon compositing geometry (`ImageUtils` drawing helpers)

`CGFloat` values are modelled as exact rationals; the drawing context is
reduced to the geometry the code computes (canvas size, draw rect, stroke
shape), since UIKit's rasterisation is an external collaborator. -/

/-- A width/height pair (`CGSize`). -/
structure Sz where
  w : ℚ
  h : ℚ
  deriving DecidableEq, Repr

/-- An `x`/`y` origin (`CGPoint`). -/
structure Pt where
  x : ℚ
  y : ℚ
  deriving DecidableEq, Repr

/-- Model of `ImageUtils.resizeImageAspectFit` (TabsBarOverlay.swift): inset the
target box by a fixed `padding = 4.0` on each side, scale by the smaller of
the two axis scale factors, and centre the scaled rect in the (uninset)
target canvas.  Returns the scaled size and the draw-rect origin; the
output canvas itself is `targetSize`. -/
def resizeImageAspectFit (size targetSize : Sz) : Sz × Pt :=
  let padding : ℚ := 4
  let availableSize : Sz := ⟨targetSize.w - padding * 2, targetSize.h - padding * 2⟩
  let wScale := availableSize.w / size.w
  let hScale := availableSize.h / size.h
  let scale := min wScale hScale
  let newSize : Sz := ⟨size.w * scale, size.h * scale⟩
  (newSize, ⟨(targetSize.w - newSize.w) / 2, (targetSize.h - newSize.h) / 2⟩)

/-- The fixed target box of `ImageUtils.applyImageIconStyling`
(TabsBarOverlay.swift): `CGSize(width: 24, height: 24)`. -/
def stylingTargetSize : Sz := ⟨24, 24⟩

/-- The sizing modes of `applyImageIconStyling`'s `switch`. -/
inductive SizeMode where
  | cover
  | stretch
  | fit
  deriving DecidableEq, Repr

/-- The `switch size.lowercased()` dispatch of `applyImageIconStyling`:
`"cover"`, `"stretch"`, `"fit"`, default `fit`. -/
def sizeModeOf (size : String) : SizeMode :=
  if lowerStr size = "cover" then .cover
  else if lowerStr size = "stretch" then .stretch
  else if lowerStr size = "fit" then .fit
  else .fit

/-- Geometry produced by a ring-drawing helper: the new canvas size, the
rect the base icon is drawn into, and whether the ring is stroked as an
ellipse (as opposed to a rounded rectangle). -/
structure RingRender where
  canvas : Sz
  imageOrigin : Pt
  strokeIsEllipse : Bool
  deriving DecidableEq, Repr

/-- Model of `ImageUtils.addRingToImage` as defined in the `ImageUtils` class nested
in `TabsBarOverlay.swift` — the function the overlay's
`createSelectedImageWithRing` actually calls: the canvas grows by
`ringWidth * 2` on each axis, the icon is drawn at `(ringWidth, ringWidth)`,
and the stroke is an ellipse exactly when the base icon is square. -/
def addRingToImage (size : Sz) (ringWidth : ℚ) : RingRender :=
  let newSize : Sz := ⟨size.w + ringWidth * 2, size.h + ringWidth * 2⟩
  { canvas := newSize
    imageOrigin := ⟨ringWidth, ringWidth⟩
    strokeIsEllipse := size.w = size.h }

/-- Model of `ImageUtils.addEnhancedRingToImage` from the parallel top-level
`ImageUtils` file shipped in the repository (src/unnamed/part_004): a
transparent spacer of the ring's width is added between icon and ring
(`totalRingSpace = spacerWidth + ringWidth` on each side) and a fixed
`bottomPadding = 2.0` is added beneath the ring. -/
def addEnhancedRingToImage (size : Sz) (ringWidth : ℚ) : RingRender :=
  let spacerWidth := ringWidth
  let bottomPadding : ℚ := 2
  let totalRingSpace := spacerWidth + ringWidth
  let newSize : Sz := ⟨size.w + totalRingSpace * 2, size.h + totalRingSpace * 2 + bottomPadding⟩
  { canvas := newSize
    imageOrigin := ⟨totalRingSpace, totalRingSpace⟩
    strokeIsEllipse := size.w = size.h }

/-! ### Overlay state machine (`TabsBarOverlay` in TabsBarPlugin.swift /
TabsBarOverlay.swift) -/

/-- The `TabsBarBadge` enum: a numeric badge or a dot badge. -/
inductive TabsBarBadge where
  | number (n : ℤ)
  | dot
  deriving DecidableEq, Repr

/-- The `TabsBarItem` record as decoded by the plugin's `JSItem` (the decoder has no
`imageIcon` field, so none is modelled). -/
structure TabsBarItem where
  id : String
  title : Option String := none
  systemIcon : Option String := none
  image : Option String := none
  badge : Option TabsBarBadge := none
  deriving DecidableEq, Repr

/-- Model of `TabsBarOverlay.applyBadge`: a numeric badge sets the `badgeValue` text
only when `n > 0` (`item.badgeValue = n > 0 ? "\(n)" : nil`), a dot badge
sets the bullet character, and no badge clears the text. -/
def applyBadge : Option TabsBarBadge → Option String
  | some (.number n) => if n > 0 then some (toString n) else none
  | some .dot => some "•"
  | none => none

/-- Model of `Dictionary(uniqueKeysWithValues: items.enumerated().map {
($0.element.id, $0.offset) })` — Swift traps at runtime when two keys are
equal, which the model renders as `none`. -/
def buildIdToIndex (items : List TabsBarItem) : Option (List (String × ℕ)) :=
  if (items.map (fun i => i.id)).Nodup then
    some ((items.map (fun i => i.id)).enum.map (fun p => (p.2, p.1)))
  else
    none

/-- The observable state of a live `TabsBarOverlay`: the stored items, the
id-to-index dictionary, the per-tab badge texts of the `UITabBarItem`s, the
selected index, and the view's hidden flag. -/
structure OverlayState where
  items : List TabsBarItem
  idToIndex : List (String × ℕ)
  barBadges : List (Option String)
  selectedIdx : Option ℕ
  hidden : Bool
  deriving DecidableEq, Repr

/-- Model of `TabsBarOverlay.update`: store the items, rebuild the id dictionary
(trapping on duplicate ids, hence the `Option`), build one bar item per
model with `applyBadge` applied, select `initialId` when it resolves to a
valid index and the first item otherwise, and set visibility. -/
def overlayUpdate (items : List TabsBarItem) (initialId : Option String)
    (visible : Bool) : Option OverlayState :=
  match buildIdToIndex items with
  | none => none
  | some d =>
    let barBadges := items.map (fun m => applyBadge m.badge)
    let firstSel : Option ℕ := if items.isEmpty then none else some 0
    let sel : Option ℕ :=
      match initialId with
      | some iid =>
        match lookupKey iid d with
        | some idx => if idx < items.length then some idx else firstSel
        | none => firstSel
      | none => firstSel
    some ⟨items, d, barBadges, sel, !visible⟩

/-- Model of `TabsBarOverlay.select(id:)`: a guarded no-op when the id is unknown or
out of range, otherwise it moves the selection. -/
def overlaySelect (id : String) (ov : OverlayState) : OverlayState :=
  match lookupKey id ov.idToIndex with
  | some idx =>
    if idx < ov.barBadges.length then { ov with selectedIdx := some idx } else ov
  | none => ov

/-- Model of `TabsBarOverlay.setBadge(id:value:)`: a guarded no-op when the id is
unknown, otherwise it applies `applyBadge` to that tab's bar item. -/
def overlaySetBadge (id : String) (value : Option TabsBarBadge)
    (ov : OverlayState) : OverlayState :=
  match lookupKey id ov.idToIndex with
  | some idx =>
    if idx < ov.barBadges.length then
      { ov with barBadges := ov.barBadges.set idx (applyBadge value) }
    else ov
  | none => ov

/-! ### Capacitor plugin entry points (`TabsBarPlugin`)

Every method except `configure`'s validation failures follows the same
shape: schedule a block on the main queue, then call `call.resolve()`.  In
the sequential model the synchronous `resolve` is settled first and the
scheduled block's settlements (if any) come after it; a Capacitor promise
observes only the first settlement.  `ensureOverlay` is modelled as always
succeeding, since the bridge view controller exists whenever the plugin is
callable. -/

/-- One settlement of a plugin call's promise. -/
inductive Settlement where
  | resolved
  | rejectedS (msg : String)
  deriving DecidableEq, Repr

/-- The plugin's state: its (lazily created) overlay. -/
structure PluginState where
  overlay : Option OverlayState
  deriving DecidableEq, Repr

/-- The promise observes the first settlement issued for the call. -/
def observedOutcome (events : List Settlement) : Option Settlement :=
  events.head?

/-- The dynamic value of the `"value"` argument of `setBadge`. -/
inductive JSVal where
  | str (s : String)
  | num (n : ℤ)
  | nullv
  | absent
  deriving DecidableEq, Repr

/-- The badge-decoding closure in `TabsBarPlugin.setBadge`: the string
`"dot"` becomes a dot badge, `NSNull` clears the badge, a non-negative
integer becomes a numeric badge, a negative integer and every other value
become no badge. -/
def parseBadgeArg : JSVal → Option TabsBarBadge
  | .str s => if s = "dot" then some .dot else none
  | .num n => if n < 0 then none else some (.number n)
  | .nullv => none
  | .absent => none

/-- Model of `TabsBarPlugin.configure`: reject while no state is touched when
`items` is missing, empty, or contains an empty id; otherwise resolve and
schedule `overlay.update` on the main queue.  The returned state is `none`
when that update traps (duplicate ids) — the call has already resolved by
then.  Color parsing never rejects and is orthogonal to the modelled state,
so it is omitted. -/
def configureCall (st : PluginState) (itemsArg : Option (List TabsBarItem))
    (initialId : Option String) (visible : Bool) :
    Settlement × Option PluginState :=
  match itemsArg with
  | none => (.rejectedS "Missing items", some st)
  | some items =>
    if items.isEmpty then (.rejectedS "Items array cannot be empty", some st)
    else if items.any (fun i => i.id.isEmpty) then
      (.rejectedS "Each item must have a non-empty id", some st)
    else
      match overlayUpdate items initialId visible with
      | some ov => (.resolved, some ⟨some ov⟩)
      | none => (.resolved, none)

/-- Model of `TabsBarPlugin.select`: reject synchronously when `id` is missing;
otherwise resolve (synchronously) and run the overlay lookup on the main
queue, which rejects a second time when no overlay exists. -/
def selectCall (st : PluginState) (idArg : Option String) :
    List Settlement × PluginState :=
  match idArg with
  | none => ([.rejectedS "Missing id"], st)
  | some id =>
    match st.overlay with
    | none => ([.resolved, .rejectedS "Overlay not initialized"], st)
    | some ov => ([.resolved], ⟨some (overlaySelect id ov)⟩)

/-- Model of `TabsBarPlugin.setBadge`: same settlement shape as `select`. -/
def setBadgeCall (st : PluginState) (idArg : Option String) (value : JSVal) :
    List Settlement × PluginState :=
  match idArg with
  | none => ([.rejectedS "Missing id"], st)
  | some id =>
    match st.overlay with
    | none => ([.resolved, .rejectedS "Overlay not initialized"], st)
    | some ov => ([.resolved], ⟨some (overlaySetBadge id (parseBadgeArg value) ov)⟩)

/-- Model of `TabsBarPlugin.show`: resolve synchronously; the main-queue block
unhides the overlay or rejects (unobserved) when there is none. -/
def showCall (st : PluginState) : List Settlement × PluginState :=
  match st.overlay with
  | none => ([.resolved, .rejectedS "Overlay not initialized"], st)
  | some ov => ([.resolved], ⟨some { ov with hidden := false }⟩)

/-- Model of `TabsBarPlugin.hide`: resolve synchronously; the main-queue block hides
the overlay or rejects (unobserved) when there is none. -/
def hideCall (st : PluginState) : List Settlement × PluginState :=
  match st.overlay with
  | none => ([.resolved, .rejectedS "Overlay not initialized"], st)
  | some ov => ([.resolved], ⟨some { ov with hidden := true }⟩)

/-! ### Color utilities (`src/src/components/tabs/color-utils.ts`)

JS numbers are modelled as exact rationals: every value these functions
compute (small integers, `x / 255`) is exactly representable, and a JS
number printed into the `rgba(...)` template string and re-read with
`parseFloat` comes back unchanged (shortest round-trip printing), so the
string hop between `hexToRgba` and `normalizeColor` is modelled as carrying
the numeric components directly. -/

/-- Value of a hex digit (`0`–`9`, `a`–`f`, `A`–`F` by code point), `0` on
anything else — `parseInt(_, 16)` is only reached on validated digits. -/
def hexDigitVal (c : Char) : ℕ :=
  let n := c.toNat
  if 48 ≤ n ∧ n ≤ 57 then n - 48
  else if 97 ≤ n ∧ n ≤ 102 then n - 87
  else if 65 ≤ n ∧ n ≤ 70 then n - 55
  else 0

/-- The character class `[A-Fa-f0-9]` of the hex regex. -/
def isHexDigitChar (c : Char) : Bool :=
  let n := c.toNat
  (48 ≤ n && n ≤ 57) || (97 ≤ n && n ≤ 102) || (65 ≤ n && n ≤ 70)

/-- Model of `isValidHexColor`: the anchored regex
`^#([A-Fa-f0-9]{3}|[A-Fa-f0-9]{6}|[A-Fa-f0-9]{8})$`. -/
def isValidHexColor (color : String) : Bool :=
  match color.data with
  | c :: rest =>
    c == '#' &&
      (rest.length == 3 || rest.length == 6 || rest.length == 8) &&
      rest.all isHexDigitChar
  | [] => false

/-- Value of `parseInt` on a two-hex-digit string. -/
def byteVal (c1 c2 : Char) : ℕ :=
  16 * hexDigitVal c1 + hexDigitVal c2

/-- The numeric components `hexToRgba` writes into its
`rgba(r, g, b, a)` template string. -/
structure Rgba where
  r : ℕ
  g : ℕ
  b : ℕ
  a : ℚ
  deriving DecidableEq, Repr

/-- Model of `hexToRgba` (color-utils.ts): `null` on invalid input, 3-digit hex
expands each digit by duplication, 8-digit hex takes its trailing byte as
alpha (`parseInt(alphaHex, 16) / 255`), alpha defaults to the `alpha`
parameter's default `1` otherwise. -/
def hexToRgba (hex : String) : Option Rgba :=
  if ¬ isValidHexColor hex then none
  else
    match hex.data with
    | _ :: [c1, c2, c3] =>
      some ⟨byteVal c1 c1, byteVal c2 c2, byteVal c3 c3, 1⟩
    | _ :: [c1, c2, c3, c4, c5, c6] =>
      some ⟨byteVal c1 c2, byteVal c3 c4, byteVal c5 c6, 1⟩
    | _ :: [c1, c2, c3, c4, c5, c6, c7, c8] =>
      some ⟨byteVal c1 c2, byteVal c3 c4, byteVal c5 c6, (byteVal c7 c8 : ℚ) / 255⟩
    | _ => none

/-- The numeric range validation shared by `isValidRgbaColor` and the
reparse inside `normalizeColor`: each of r, g, b in [0, 255] and alpha in
[0, 1]. -/
def rgbaRangeOk (r g b a : ℚ) : Prop :=
  (0 ≤ r ∧ r ≤ 255) ∧ (0 ≤ g ∧ g ≤ 255) ∧ (0 ≤ b ∧ b ≤ 255) ∧ (0 ≤ a ∧ a ≤ 1)

instance (r g b a : ℚ) : Decidable (rgbaRangeOk r g b a) := by
  unfold rgbaRangeOk; exact inferInstance

/-- A normalized color as returned by `normalizeColor`: all channels in the
0–1 range. -/
structure NormColor where
  r : ℚ
  g : ℚ
  b : ℚ
  a : ℚ
  deriving DecidableEq, Repr

/-- The rgba branch of `normalizeColor`, at the level of the numeric
components carried by the `rgba(...)` string: re-validate the ranges (the
`isValidRgbaColor` gate) and divide the color channels by 255, keeping
alpha as parsed. -/
def normalizeRgba (r g b a : ℚ) : Option NormColor :=
  if rgbaRangeOk r g b a then some ⟨r / 255, g / 255, b / 255, a⟩ else none

/-- The hex path of `normalizeColor` (color-utils.ts): convert with
`hexToRgba`, then reparse the resulting `rgba(...)` string and normalize
its components. -/
def normalizeHexColor (color : String) : Option NormColor :=
  match hexToRgba color with
  | some q => normalizeRgba (q.r : ℚ) (q.g : ℚ) (q.b : ℚ) q.a
  | none => none

/-! ## Theorems -/

/-- C1.  The source validator accepts plain `http://` URLs: `isValidHttpUrl`
tests `scheme == "http" || scheme == "https"`, so `processImageIcon`
classifies `"http://x/y.png"` as a remote URL and proceeds to a network
fetch, not as Invalid with local fallback.  (The repository's own test file
annotates an `http://` source with "Should be rejected for security", and
the spec calls the https-only rule a deliberate security constraint, so the
code contradicts the documented intent.)  An `https` URL and a malformed
source behave as specified. -/
theorem C1_http_source_accepted_not_invalid :
    isValidHttpUrl "http://x/y.png" = true ∧
    processImageIcon "http://x/y.png" = SourceClass.remoteURL ∧
    processImageIcon "http://x/y.png" ≠ SourceClass.invalid ∧
    processImageIcon "https://x/y.png" = SourceClass.remoteURL ∧
    processImageIcon "not a url" = SourceClass.invalid := by
  refine ⟨by decide, by decide, by decide, by decide, by decide⟩

/-- C5.  The ring compositor the overlay calls
(`ImageUtils.addRingToImage` in TabsBarOverlay.swift) expands a 24×24 base
icon with ring width 2 to a 28×28 canvas — `2 × ringWidth` per axis, with
no spacer and no bottom padding — whereas the claimed geometry
(`2 × (spacerWidth + ringWidth)` per axis plus bottom padding, implemented
by `addEnhancedRingToImage` in the repository's parallel `ImageUtils` file)
yields 32×34.  The elliptical-stroke-on-square-icon part does hold of both
functions. -/
theorem C5_ring_canvas_missing_spacer_and_bottom_padding :
    (addRingToImage ⟨24, 24⟩ 2).canvas = ⟨28, 28⟩ ∧
    (addRingToImage ⟨24, 24⟩ 2).canvas ≠ ⟨24 + 2 * (2 + 2), 24 + 2 * (2 + 2) + 2⟩ ∧
    (addEnhancedRingToImage ⟨24, 24⟩ 2).canvas = ⟨24 + 2 * (2 + 2), 24 + 2 * (2 + 2) + 2⟩ ∧
    (addEnhancedRingToImage ⟨24, 24⟩ 2).canvas = ⟨32, 34⟩ ∧
    (addRingToImage ⟨24, 24⟩ 2).strokeIsEllipse = true ∧
    (addEnhancedRingToImage ⟨24, 24⟩ 2).strokeIsEllipse = true := by
  refine ⟨?_, ?_, ?_, ?_, ?_, ?_⟩ <;>
    simp [addRingToImage, addEnhancedRingToImage] <;> norm_num

/-- C2 (counterexample).  Two near-simultaneous requests for the same URL
do **not** always result in exactly one network fetch: the second caller is
only re-scheduled, and when the first fetch fails (nothing is cached and
the loading flag is cleared), its re-scheduled retry starts a second
network fetch. -/
theorem C2_two_fetches_when_first_fails :
    (runLoader {}
      [.request 1 "https://x/y.png", .request 2 "https://x/y.png",
       .complete "https://x/y.png" none, .fire 2 "https://x/y.png"]).fetchCount = 2 := by
  decide

/-- C2 (amended).  While a fetch for a URL is in flight (its loading flag
is set and nothing is cached yet), a further request for that URL issues no
new network fetch and no new task: it is re-scheduled to wait.  When the
in-flight fetch succeeds, exactly one network fetch is issued in total and
both the original and the re-scheduled caller receive the fetched image;
only a failed first fetch lets the re-scheduled caller fetch again. -/
theorem C2_in_flight_requests_deduplicated (st : LoaderState) (c : ℕ) (u : String)
    (hc : lookupKey u st.imageCache = none) (hl : u ∈ st.loadingStates) :
    (doRequest c u st).fetchCount = st.fetchCount ∧
    (doRequest c u st).inflight = st.inflight ∧
    (doRequest c u st).waiting = (c, u) :: st.waiting ∧
    (runLoader {}
      [.request 1 "https://x/y.png", .request 2 "https://x/y.png",
       .complete "https://x/y.png" (some 7), .fire 2 "https://x/y.png"]).fetchCount = 1 ∧
    (2, some 7) ∈ (runLoader {}
      [.request 1 "https://x/y.png", .request 2 "https://x/y.png",
       .complete "https://x/y.png" (some 7), .fire 2 "https://x/y.png"]).delivered ∧
    (1, some 7) ∈ (runLoader {}
      [.request 1 "https://x/y.png", .request 2 "https://x/y.png",
       .complete "https://x/y.png" (some 7), .fire 2 "https://x/y.png"]).delivered := by
  refine ⟨?_, ?_, ?_, by decide, by decide, by decide⟩ <;>
    simp [doRequest, hc, if_pos hl]

/-- C3.  `configure` does reject an empty items list, a missing list, and
an empty id — with no state committed — but it performs **no duplicate-id
check**: `configure({items:[{id:"a"},{id:"a"}]})` passes validation and the
call resolves, after which the scheduled `overlay.update` traps in
`Dictionary(uniqueKeysWithValues:)` on the main queue (modelled as the
`none` state), instead of rejecting with a duplicate-id
ConfigurationError. -/
theorem C3_configure_no_duplicate_id_rejection :
    configureCall ⟨none⟩ (some [{ id := "a" }, { id := "a" }]) none true
      = (Settlement.resolved, none) ∧
    configureCall ⟨none⟩ (some []) none true
      = (Settlement.rejectedS "Items array cannot be empty", some ⟨none⟩) ∧
    configureCall ⟨none⟩ (some [{ id := "" }, { id := "b" }]) none true
      = (Settlement.rejectedS "Each item must have a non-empty id", some ⟨none⟩) ∧
    configureCall ⟨none⟩ none none true
      = (Settlement.rejectedS "Missing items", some ⟨none⟩) := by
  refine ⟨by decide, by decide, by decide, by decide⟩

/-- C4 (counterexample).  After configuring the single item `"home"`,
`select({id:"missing"})` does leave the selection at `"home"` — but the
call **resolves successfully**; no UnknownIdError (or any rejection) is the
observed outcome, contradicting the claim that the call fails. -/
theorem C4_select_unknown_id_resolves :
    observedOutcome
      (selectCall ⟨overlayUpdate [{ id := "home" }] none true⟩ (some "missing")).1
      = some Settlement.resolved ∧
    (selectCall ⟨overlayUpdate [{ id := "home" }] none true⟩ (some "missing")).2
      = ⟨overlayUpdate [{ id := "home" }] none true⟩ ∧
    ((selectCall ⟨overlayUpdate [{ id := "home" }] none true⟩
        (some "missing")).2.overlay.map fun ov => ov.selectedIdx)
      = some (some 0) := by
  refine ⟨by decide, by decide, by decide⟩

/-- C4 (amended).  For every configured overlay state and every id not
present in the configured item set, `select({id})` leaves all prior state —
including the current selection — unchanged, but the call resolves
successfully as a silent no-op instead of failing with an UnknownIdError. -/
theorem C4_select_unknown_id_is_resolved_noop (ov : OverlayState) (id : String)
    (h : lookupKey id ov.idToIndex = none) :
    selectCall ⟨some ov⟩ (some id) = ([Settlement.resolved], ⟨some ov⟩) := by
  simp [selectCall, overlaySelect, h]

/-- C4 witness: the amended theorem applied to the configured `"home"`
state and the unknown id `"missing"`. -/
theorem C4_select_unknown_id_is_resolved_noop_witness :
    selectCall ⟨some ⟨[{ id := "home" }], [("home", 0)], [none], some 0, false⟩⟩
        (some "missing")
      = ([Settlement.resolved],
         ⟨some ⟨[{ id := "home" }], [("home", 0)], [none], some 0, false⟩⟩) :=
  C4_select_unknown_id_is_resolved_noop
    ⟨[{ id := "home" }], [("home", 0)], [none], some 0, false⟩ "missing" (by decide)

/-- C6.  A numeric badge is displayed (the bar item's badge text is set)
iff its value is strictly positive — `0` and negative values suppress it —
while the literal `"dot"` displays a dot badge and `null`/absent clears the
badge.  This holds at configure time (`update` installs `applyBadge` of
each item's badge) and via `setBadge` (which installs `applyBadge` of the
decoded value into the addressed tab's bar item). -/
theorem C6_badge_displayed_iff_positive :
    (∀ n : ℤ, applyBadge (some (.number n)) ≠ none ↔ 0 < n) ∧
    applyBadge (some .dot) = some "•" ∧
    applyBadge none = none ∧
    parseBadgeArg (.str "dot") = some .dot ∧
    parseBadgeArg .nullv = none ∧
    parseBadgeArg .absent = none ∧
    applyBadge (parseBadgeArg (.num 0)) = none ∧
    (∀ (items : List TabsBarItem) (initialId : Option String) (visible : Bool)
        (ov : OverlayState), overlayUpdate items initialId visible = some ov →
        ov.barBadges = items.map fun m => applyBadge m.badge) ∧
    (∀ (ov : OverlayState) (id : String) (idx : ℕ) (value : Option TabsBarBadge),
        lookupKey id ov.idToIndex = some idx → idx < ov.barBadges.length →
        (overlaySetBadge id value ov).barBadges[idx]? = some (applyBadge value)) := by
  refine ⟨?_, rfl, rfl, by decide, rfl, rfl, by decide, ?_, ?_⟩
  · intro n
    by_cases h : 0 < n <;> simp [applyBadge, h]
  · intro items initialId visible ov h
    unfold overlayUpdate at h
    split at h
    · exact absurd h (by simp)
    · exact (Option.some_injective _ h) ▸ rfl
  · intro ov id idx value h1 h2
    simp [overlaySetBadge, h1, if_pos h2, List.getElem?_set_eq_of_lt _ h2]

/-- C6 witness: a two-tab configuration where the first tab carries badge
`0` (suppressed) and setting `"dot"` on the second displays the dot. -/
theorem C6_badge_displayed_iff_positive_witness :
    (applyBadge (some (.number 3)) ≠ none ↔ (0 : ℤ) < 3) ∧
    (OverlayState.mk [{ id := "a", badge := some (.number 0) }, { id := "b" }]
        [("a", 0), ("b", 1)] [none, none] (some 0) false).barBadges =
      [{ id := "a", badge := some (.number 0) }, ({ id := "b" } : TabsBarItem)].map
        (fun m => applyBadge m.badge) ∧
    (overlaySetBadge "b" (parseBadgeArg (.str "dot"))
        ⟨[{ id := "a" }, { id := "b" }], [("a", 0), ("b", 1)],
          [none, none], some 0, false⟩).barBadges[1]? = some (applyBadge (some .dot)) := by
  refine ⟨(C6_badge_displayed_iff_positive.1 3), ?_, ?_⟩
  · exact C6_badge_displayed_iff_positive.2.2.2.2.2.2.2.1 _ none true _ (by decide)
  · exact C6_badge_displayed_iff_positive.2.2.2.2.2.2.2.2
      ⟨[{ id := "a" }, { id := "b" }], [("a", 0), ("b", 1)], [none, none], some 0, false⟩
      "b" 1 (parseBadgeArg (.str "dot")) (by decide) (by decide)

/-- C7.  The remote-fetch response validation rejects (yields `none`, which
the caller converts into fallback) whenever the HTTP status is not
successful (any status outside 2xx — the code in fact requires exactly
200), whenever a present `Content-Type` is outside the supported MIME set,
whenever the body exceeds 5 242 880 bytes, and whenever the body does not
decode as an image. -/
theorem C7_fetch_failure_conditions_yield_error (r : NetResponse) :
    (¬ (200 ≤ r.statusCode ∧ r.statusCode ≤ 299) → processUrlResponse r = none) ∧
    (∀ ct, r.mimeType = some ct → validTypes.contains (lowerStr ct) = false →
      processUrlResponse r = none) ∧
    (∀ n, r.dataBytes = some n → 5242880 < n → processUrlResponse r = none) ∧
    (r.decoded = none → processUrlResponse r = none) := by
  refine ⟨?_, ?_, ?_, ?_⟩
  · intro h
    have hsc : r.statusCode ≠ 200 := by omega
    unfold processUrlResponse
    cases r.dataBytes with
    | none => rfl
    | some n => by_cases hh : r.isHttpResponse <;> simp [hh, hsc]
  · intro ct hmt hct
    unfold processUrlResponse
    cases r.dataBytes with
    | none => rfl
    | some n =>
      simp only [hmt, hct]
      split <;> simp [hct, hmt]
  · intro n hdb hn
    have hmax : maxFileSize < n := by unfold maxFileSize; omega
    unfold processUrlResponse
    rw [hdb]
    by_cases hh : r.isHttpResponse
    · by_cases hs : r.statusCode = 200
      · by_cases he : r.errorPresent
        · simp [hh, hs, he]
        · cases hm : r.mimeType with
          | none => simp [hh, hs, he, hm, hmax, Nat.not_le_of_lt hmax]
          | some ct =>
            by_cases hcont : validTypes.contains (lowerStr ct) <;>
              simp [hh, hs, he, hm, hcont, hmax, Nat.not_le_of_lt hmax]
      · simp [hh, hs]
    · simp [hh]
  · intro hdec
    unfold processUrlResponse
    cases r.dataBytes with
    | none => rfl
    | some n =>
      by_cases hh : r.isHttpResponse
      · by_cases hs : r.statusCode = 200
        · by_cases he : r.errorPresent
          · simp [hh, hs, he]
          · cases hm : r.mimeType with
            | none =>
              by_cases hsz : n > maxFileSize <;> simp [hh, hs, he, hm, hsz, hdec]
            | some ct =>
              by_cases hcont : validTypes.contains (lowerStr ct)
              · by_cases hsz : n > maxFileSize <;>
                  simp [hh, hs, he, hm, hcont, hsz, hdec]
              · simp [hh, hs, he, hm, hcont, hdec]
        · simp [hh, hs]
      · simp [hh]

/-- C7 witness: a 404 response, a `text/html` response, a 6 000 000-byte
body, and an undecodable body are each rejected. -/
theorem C7_fetch_failure_conditions_yield_error_witness :
    processUrlResponse ⟨some 10, true, 404, false, some "image/png", some 1⟩ = none ∧
    processUrlResponse ⟨some 10, true, 200, false, some "text/html", some 1⟩ = none ∧
    processUrlResponse ⟨some 6000000, true, 200, false, some "image/png", some 1⟩ = none ∧
    processUrlResponse ⟨some 10, true, 200, false, some "image/png", none⟩ = none :=
  ⟨(C7_fetch_failure_conditions_yield_error
      ⟨some 10, true, 404, false, some "image/png", some 1⟩).1 (by norm_num),
   (C7_fetch_failure_conditions_yield_error
      ⟨some 10, true, 200, false, some "text/html", some 1⟩).2.1 "text/html" rfl (by decide),
   (C7_fetch_failure_conditions_yield_error
      ⟨some 6000000, true, 200, false, some "image/png", some 1⟩).2.2.1 6000000 rfl
      (by norm_num),
   (C7_fetch_failure_conditions_yield_error
      ⟨some 10, true, 200, false, some "image/png", none⟩).2.2.2 rfl⟩

/-- C8.  `"fit"` sizing into the 24×24 target preserves the aspect ratio
(`newW·h = newH·w`), fits the scaled image inside the box inset by the
fixed 4-unit padding (so at most 16×16, with the draw rect lying between
offset 4 and 20), centres it, and on a 100×50 source yields a centred
16×8 rect — touching the 16×16 inset box on the longer axis only. -/
theorem C8_fit_sizing_aspect_padding_centering (w h : ℚ) (hw : 0 < w) (hh : 0 < h) :
    (resizeImageAspectFit ⟨w, h⟩ stylingTargetSize).1.w * h
        = (resizeImageAspectFit ⟨w, h⟩ stylingTargetSize).1.h * w ∧
    (resizeImageAspectFit ⟨w, h⟩ stylingTargetSize).1.w ≤ 16 ∧
    (resizeImageAspectFit ⟨w, h⟩ stylingTargetSize).1.h ≤ 16 ∧
    (resizeImageAspectFit ⟨w, h⟩ stylingTargetSize).2.x
        = (24 - (resizeImageAspectFit ⟨w, h⟩ stylingTargetSize).1.w) / 2 ∧
    (resizeImageAspectFit ⟨w, h⟩ stylingTargetSize).2.y
        = (24 - (resizeImageAspectFit ⟨w, h⟩ stylingTargetSize).1.h) / 2 ∧
    4 ≤ (resizeImageAspectFit ⟨w, h⟩ stylingTargetSize).2.x ∧
    (resizeImageAspectFit ⟨w, h⟩ stylingTargetSize).2.x
        + (resizeImageAspectFit ⟨w, h⟩ stylingTargetSize).1.w ≤ 20 ∧
    sizeModeOf "fit" = SizeMode.fit ∧
    resizeImageAspectFit ⟨100, 50⟩ stylingTargetSize
        = (⟨16, 8⟩, ⟨4, 8⟩) := by
  have havail : (24 - 4 * 2 : ℚ) = 16 := by norm_num
  unfold resizeImageAspectFit stylingTargetSize
  dsimp only
  rw [havail]
  have hsw : min (16 / w) (16 / h) ≤ 16 / w := min_le_left _ _
  have hsh : min (16 / w) (16 / h) ≤ 16 / h := min_le_right _ _
  have hw16 : w * min (16 / w) (16 / h) ≤ 16 := by
    have := mul_le_mul_of_nonneg_left hsw (le_of_lt hw)
    calc w * min (16 / w) (16 / h) ≤ w * (16 / w) := this
    _ = 16 := by field_simp
  have hh16 : h * min (16 / w) (16 / h) ≤ 16 := by
    have := mul_le_mul_of_nonneg_left hsh (le_of_lt hh)
    calc h * min (16 / w) (16 / h) ≤ h * (16 / h) := this
    _ = 16 := by field_simp
  refine ⟨by ring, hw16, hh16, rfl, rfl, by linarith, by linarith, by decide, ?_⟩
  norm_num [min_def]

/-- C8 witness: the theorem applied to the 100×50 source of the spec's
sizing scenario. -/
theorem C8_fit_sizing_aspect_padding_centering_witness :
    (resizeImageAspectFit ⟨100, 50⟩ stylingTargetSize).1.w * 50
        = (resizeImageAspectFit ⟨100, 50⟩ stylingTargetSize).1.h * 100 ∧
    (resizeImageAspectFit ⟨100, 50⟩ stylingTargetSize).1.w ≤ 16 :=
  ⟨(C8_fit_sizing_aspect_padding_centering 100 50 (by norm_num) (by norm_num)).1,
   (C8_fit_sizing_aspect_padding_centering 100 50 (by norm_num) (by norm_num)).2.1⟩

/-- A hex digit's value is at most 15. -/
theorem hexDigitVal_le_15 (c : Char) : hexDigitVal c ≤ 15 := by
  unfold hexDigitVal
  dsimp only
  repeat' split
  all_goals omega

/-- A two-hex-digit byte is at most 255. -/
theorem byteVal_le_255 (c1 c2 : Char) : byteVal c1 c2 ≤ 255 := by
  have h1 := hexDigitVal_le_15 c1
  have h2 := hexDigitVal_le_15 c2
  unfold byteVal
  omega

/-- C9.  For every valid hex color string (3, 6 or 8 hex digits after `#`),
`hexToRgba` succeeds; its channel components are bytes (alpha in [0, 1]),
the reparse-and-normalize path of `normalizeColor` succeeds on the
resulting `rgba(...)` components, the normalized channels all lie in
[0, 1], and un-normalizing recovers the original channel values exactly
(so in particular within floating-point tolerance). -/
theorem C9_hexToRgba_roundtrip (s : String) (q : Rgba) (h : hexToRgba s = some q) :
    q.r ≤ 255 ∧ q.g ≤ 255 ∧ q.b ≤ 255 ∧ 0 ≤ q.a ∧ q.a ≤ 1 ∧
    normalizeHexColor s
      = some ⟨(q.r : ℚ) / 255, (q.g : ℚ) / 255, (q.b : ℚ) / 255, q.a⟩ ∧
    (q.r : ℚ) / 255 * 255 = (q.r : ℚ) ∧
    (q.g : ℚ) / 255 * 255 = (q.g : ℚ) ∧
    (q.b : ℚ) / 255 * 255 = (q.b : ℚ) ∧
    (0 ≤ (q.r : ℚ) / 255 ∧ (q.r : ℚ) / 255 ≤ 1) ∧
    (0 ≤ (q.g : ℚ) / 255 ∧ (q.g : ℚ) / 255 ≤ 1) ∧
    (0 ≤ (q.b : ℚ) / 255 ∧ (q.b : ℚ) / 255 ≤ 1) ∧
    (∀ t : String, isValidHexColor t = true → (hexToRgba t).isSome) := by
  have hbounds : q.r ≤ 255 ∧ q.g ≤ 255 ∧ q.b ≤ 255 ∧ 0 ≤ q.a ∧ q.a ≤ 1 := by
    unfold hexToRgba at h
    split at h
    · exact absurd h (by simp)
    · split at h
      · obtain ⟨rfl⟩ := Option.some_injective _ h
        refine ⟨byteVal_le_255 _ _, byteVal_le_255 _ _, byteVal_le_255 _ _, by norm_num⟩
      · obtain ⟨rfl⟩ := Option.some_injective _ h
        refine ⟨byteVal_le_255 _ _, byteVal_le_255 _ _, byteVal_le_255 _ _, by norm_num⟩
      · obtain ⟨rfl⟩ := Option.some_injective _ h
        refine ⟨byteVal_le_255 _ _, byteVal_le_255 _ _, byteVal_le_255 _ _,
          by positivity, ?_⟩
        rw [div_le_one (by norm_num)]
        exact_mod_cast byteVal_le_255 _ _
      · exact absurd h (by simp)
  obtain ⟨hr, hg, hb, ha0, ha1⟩ := hbounds
  have hnorm : normalizeHexColor s
      = some ⟨(q.r : ℚ) / 255, (q.g : ℚ) / 255, (q.b : ℚ) / 255, q.a⟩ := by
    unfold normalizeHexColor
    rw [h]
    unfold normalizeRgba
    dsimp only
    rw [if_pos]
    exact ⟨⟨by positivity, by exact_mod_cast hr⟩, ⟨by positivity, by exact_mod_cast hg⟩,
      ⟨by positivity, by exact_mod_cast hb⟩, ⟨ha0, ha1⟩⟩
  refine ⟨hr, hg, hb, ha0, ha1, hnorm, by field_simp, by field_simp, by field_simp,
    ⟨by positivity, ?_⟩, ⟨by positivity, ?_⟩, ⟨by positivity, ?_⟩, ?_⟩
  · rw [div_le_one (by norm_num)]; exact_mod_cast hr
  · rw [div_le_one (by norm_num)]; exact_mod_cast hg
  · rw [div_le_one (by norm_num)]; exact_mod_cast hb
  · intro t ht
    have hv := ht
    unfold isValidHexColor at ht
    unfold hexToRgba
    rw [if_neg (by simp [hv])]
    cases hd : t.data with
    | nil => rw [hd] at ht; simp at ht
    | cons c rest =>
      rw [hd] at ht
      simp only [Bool.and_eq_true, Bool.or_eq_true, beq_iff_eq] at ht
      obtain ⟨⟨-, hlen⟩, -⟩ := ht
      rcases rest with - | ⟨a1, - | ⟨a2, - | ⟨a3, - | ⟨a4, - | ⟨a5, - | ⟨a6,
        - | ⟨a7, - | ⟨a8, tail⟩⟩⟩⟩⟩⟩⟩⟩ <;>
        simp only [List.length_nil, List.length_cons] at hlen <;>
        first
          | (simp; done)
          | (exfalso; rcases hlen with (hx | hx) | hx <;> omega)
          | (cases tail with
              | nil => simp
              | cons x xs =>
                exfalso
                simp only [List.length_cons] at hlen
                rcases hlen with (hx | hx) | hx <;> omega)

/-- C9 witness: the theorem applied to `"#FF5733"`. -/
theorem C9_hexToRgba_roundtrip_witness :
    normalizeHexColor "#FF5733"
      = some ⟨(255 : ℚ) / 255, (87 : ℚ) / 255, (51 : ℚ) / 255, 1⟩ :=
  (C9_hexToRgba_roundtrip "#FF5733" ⟨255, 87, 51, 1⟩ (by decide)).2.2.2.2.2.1

/-- C10.  With no overlay ever configured, `select`, `setBadge`, `show`
and `hide` each settle their promise with the synchronous `call.resolve()`
issued before the scheduled main-queue block runs; the block's
"Overlay not initialized" rejection comes second and is never the observed
outcome. -/
theorem C10_calls_resolve_before_overlay_check (st : PluginState)
    (h : st.overlay = none) (id : String) (v : JSVal) :
    (selectCall st (some id)).1
      = [Settlement.resolved, Settlement.rejectedS "Overlay not initialized"] ∧
    (setBadgeCall st (some id) v).1
      = [Settlement.resolved, Settlement.rejectedS "Overlay not initialized"] ∧
    (showCall st).1
      = [Settlement.resolved, Settlement.rejectedS "Overlay not initialized"] ∧
    (hideCall st).1
      = [Settlement.resolved, Settlement.rejectedS "Overlay not initialized"] ∧
    observedOutcome (selectCall st (some id)).1 = some Settlement.resolved ∧
    observedOutcome (setBadgeCall st (some id) v).1 = some Settlement.resolved ∧
    observedOutcome (showCall st).1 = some Settlement.resolved ∧
    observedOutcome (hideCall st).1 = some Settlement.resolved := by
  simp [selectCall, setBadgeCall, showCall, hideCall, observedOutcome, h]

/-- C10 witness: the theorem applied to the fresh plugin state. -/
theorem C10_calls_resolve_before_overlay_check_witness :
    observedOutcome (selectCall ⟨none⟩ (some "home")).1 = some Settlement.resolved ∧
    observedOutcome (showCall ⟨none⟩).1 = some Settlement.resolved :=
  ⟨(C10_calls_resolve_before_overlay_check ⟨none⟩ rfl "home" .nullv).2.2.2.2.1,
   (C10_calls_resolve_before_overlay_check ⟨none⟩ rfl "home" .nullv).2.2.2.2.2.2.1⟩

/-- C2 witness (for the amended in-flight dedup theorem): a loader state
with one in-flight fetch for `"https://a"` takes a second request for the
same URL without issuing a new fetch. -/
theorem C2_in_flight_requests_deduplicated_witness :
    (doRequest 5 "https://a"
      ⟨[], ["https://a"], [(1, "https://a")], [], 1, []⟩).fetchCount = 1 ∧
    (doRequest 5 "https://a"
      ⟨[], ["https://a"], [(1, "https://a")], [], 1, []⟩).waiting = [(5, "https://a")] := by
  have h := C2_in_flight_requests_deduplicated
    ⟨[], ["https://a"], [(1, "https://a")], [], 1, []⟩ 5 "https://a" (by decide) (by decide)
  exact ⟨h.1, by rw [h.2.2.1]⟩

end StayLiquid
